import Mathlib

/-!
Shallow embedding of the KDE Theme Backup & Switcher GUI
(`src/kde_theme_gui.py`, called the *main revision* below, and
`src/deb-build/usr/lib/kde-theme-backup/kde_theme_gui.py`, called the
*deb revision*).  Both files define a single `MainWindow` class; the
parts modelled here are the asynchronous command runner
(`_start_process`, `_read_stdout`, `_read_stderr`, `_process_finished`)
and the filesystem actions (`load_backups`, `create_backup`,
`delete_backup`, `import_backup`).  Qt widgets are modelled only through
the fields of `MainWindow` state the code reads or writes
(`self.process`, `self._after_process`, the progress bar, the status
label, the enabled state of the controls, and the log contents); the
blocking `QMessageBox` dialogs are modelled as emitted events.
-/

namespace KdeThemeGui

/-- Python `x or default` for an optional string argument: both `None`
and the empty string are falsy, so either one selects the default. -/
def pyOr (m : Option String) (dflt : String) : String :=
  match m with
  | none => dflt
  | some t => if t = "" then dflt else t

/-- A completion continuation `on_finished(exit_code)` supplied by a
caller of `_start_process`.  A Python callable can raise; this is
modelled by returning `Except.error` with the exception message. -/
def Callback : Type := Int → Except String Unit

/-- The `QProcess` object stored in `self.process`, together with the
signal connections `_start_process` makes on it. -/
structure ProcHandle where
  program : String
  arguments : List String
  stdoutConnected : Bool
  stderrConnected : Bool
  finishedConnected : Bool

/-- The mutable `MainWindow` fields the runner code reads or writes:
`self.process`, `self._after_process`, the progress bar visibility, the
status label text, whether the controls are disabled (`set_busy`
disables every control button, the list and the name field together, so
one flag suffices), and the lines of the log widget. -/
structure RunnerState where
  process : Option ProcHandle
  afterProcess : Option Callback
  progressVisible : Bool
  statusText : String
  controlsDisabled : Bool
  log : List String

/-- Blocking dialogs raised while the runner executes. -/
inductive Event where
  | warned (title msg : String)
  | critical (title msg : String)
  | callbackCalled (code : Int)
deriving DecidableEq, Repr

/-- `set_busy(busy, message)`: shows or hides the progress bar, sets the
status label (`message or "Working…"` / `message or "Idle."`), and
toggles the controls.  Identical in both revisions. -/
def set_busy (busy : Bool) (message : Option String) (s : RunnerState) : RunnerState :=
  { s with
      progressVisible := busy
      statusText := pyOr message (if busy then "Working…" else "Idle.")
      controlsDisabled := busy }

/-- `append_log(text)`: appends `text` to the log widget unless it is
falsy (the empty string).  Identical in both revisions. -/
def append_log (text : String) (s : RunnerState) : RunnerState :=
  if text = "" then s else { s with log := s.log ++ [text] }

/-- `_start_process(args, status_message, on_finished)`.  The two
revisions differ only in dialog strings, so the shared body is
parameterised by them.  If `self.process` is truthy (a `QProcess`
object is always truthy, so this tests the slot being non-`None`) the
call shows a warning and returns at once.  Otherwise it sets the busy
UI state, logs the command line, stores a fresh connected process
handle and the continuation, and starts the process;
`waitForStarted(5000)` succeeding or not is the environment input
`launchOk`.  On launch failure the failure is logged and reported and
both the process slot and the continuation slot are reset to `None`. -/
def startProcessWith (busyTitle busyMsg failDialog : String)
    (args : List String) (statusMessage : Option String)
    (onFinished : Option Callback) (launchOk : Bool) (s : RunnerState) :
    RunnerState × List Event :=
  if s.process.isSome then
    (s, [Event.warned busyTitle busyMsg])
  else
    match args with
    | [] => (s, [])
    | prog :: rest =>
      let line := String.intercalate " " (prog :: rest)
      let s1 := set_busy true (some (pyOr statusMessage ("Running: " ++ line))) s
      let s2 := append_log ("$ " ++ line) s1
      let handle : ProcHandle :=
        { program := prog
          arguments := rest
          stdoutConnected := true
          stderrConnected := true
          finishedConnected := true }
      let s3 := { s2 with process := some handle, afterProcess := onFinished }
      if launchOk then
        (s3, [])
      else
        let s4 := append_log "❌ Failed to start process." s3
        let s5 := set_busy false none s4
        ({ s5 with process := none, afterProcess := none },
         [Event.critical "Error" failDialog])

/-- `_start_process` of the main revision (`src/kde_theme_gui.py`). -/
def startProcessMain : List String → Option String → Option Callback →
    Bool → RunnerState → RunnerState × List Event :=
  startProcessWith "Busy" "A task is already running." "Failed to start command."

/-- `_start_process` of the deb revision. -/
def startProcessDeb : List String → Option String → Option Callback →
    Bool → RunnerState → RunnerState × List Event :=
  startProcessWith "Already running"
    "A command is already running. Please wait for it to finish."
    "Failed to start process."

/-- The part of `_process_finished` that runs before the continuation is
invoked: log a success or failure line (warning the user on a nonzero
exit code), leave the busy state, and clear both the process slot and
the continuation slot.  Shared by the two revisions up to message
strings. -/
def finishPrefixWith (failLog : Int → String) (failTitle : String)
    (failDialog : Int → String) (idleMsg : Option String)
    (exitCode : Int) (s : RunnerState) : RunnerState × List Event :=
  let se :=
    if exitCode ≠ 0 then
      (append_log (failLog exitCode) s, [Event.warned failTitle (failDialog exitCode)])
    else
      (append_log "✅ Done." s, [])
  let s2 := set_busy false idleMsg se.1
  ({ s2 with process := none, afterProcess := none }, se.2)

/-- Pre-continuation part of `_process_finished` in the main revision. -/
def finishPrefixMain (exitCode : Int) (s : RunnerState) : RunnerState × List Event :=
  finishPrefixWith (fun c => "❌ Command exited with " ++ toString c)
    "Failed" (fun _ => "Command failed. See log.") none exitCode s

/-- Pre-continuation part of `_process_finished` in the deb revision. -/
def finishPrefixDeb (exitCode : Int) (s : RunnerState) : RunnerState × List Event :=
  finishPrefixWith (fun c => "❌ Command exited with status " ++ toString c)
    "Command failed"
    (fun c => "Command exited with status " ++ toString c ++ ".\nSee log for details.")
    (some "Idle.") exitCode s

/-- The runner state in effect at the moment `_process_finished` of the
main revision executes `cb(exit_code)`: everything before that line has
already run. -/
def stateAtCallbackMain (exitCode : Int) (s : RunnerState) : RunnerState :=
  (finishPrefixMain exitCode s).1

/-- The runner state in effect at the moment `_process_finished` of the
deb revision executes `cb(exit_code)`. -/
def stateAtCallbackDeb (exitCode : Int) (s : RunnerState) : RunnerState :=
  (finishPrefixDeb exitCode s).1

/-- Result of a `_process_finished` run: the final state, the dialog and
continuation-invocation events, and the exception, if any, that escaped
the handler uncaught. -/
structure FinishResult where
  state : RunnerState
  events : List Event
  uncaught : Option String

/-- `_process_finished(exit_code, _)` of the main revision.  The local
`cb = self._after_process` is read before the slots are cleared (none of
the statements before it touch `_after_process`), and `cb(exit_code)` is
the last statement, with no exception handler around it: an exception
raised by the continuation propagates out uncaught. -/
def processFinishedMain (exitCode : Int) (s : RunnerState) : FinishResult :=
  let cb := s.afterProcess
  let pe := finishPrefixMain exitCode s
  match cb with
  | none => ⟨pe.1, pe.2, none⟩
  | some f =>
    match f exitCode with
    | Except.ok _ => ⟨pe.1, pe.2 ++ [Event.callbackCalled exitCode], none⟩
    | Except.error e => ⟨pe.1, pe.2 ++ [Event.callbackCalled exitCode], some e⟩

/-- `_process_finished(exit_code, exit_status)` of the deb revision.  It
returns at once when the process slot is empty, and the continuation
call is wrapped in `try/except Exception`, which appends
`❌ Error in callback: …` to the log instead of propagating. -/
def processFinishedDeb (exitCode : Int) (s : RunnerState) : FinishResult :=
  if s.process.isNone then ⟨s, [], none⟩
  else
    let cb := s.afterProcess
    let pe := finishPrefixDeb exitCode s
    match cb with
    | none => ⟨pe.1, pe.2, none⟩
    | some f =>
      match f exitCode with
      | Except.ok _ => ⟨pe.1, pe.2 ++ [Event.callbackCalled exitCode], none⟩
      | Except.error e =>
        ⟨append_log ("❌ Error in callback: " ++ e) pe.1,
         pe.2 ++ [Event.callbackCalled exitCode], none⟩

/-- The runner is Idle exactly when no process is outstanding; this is
the condition under which `_start_process` accepts a new command. -/
def isIdle (s : RunnerState) : Bool := s.process.isNone

/-- One complete lifecycle of a `_start_process` call in the main
revision, as driven by the Qt event loop: if and only if the start
leaves a process in the slot, that process later exits with `exitCode`
and the connected `finished` signal runs `_process_finished`. -/
def runCommandMain (args : List String) (statusMessage : Option String)
    (onFinished : Option Callback) (launchOk : Bool) (exitCode : Int)
    (s : RunnerState) : FinishResult :=
  let st := startProcessMain args statusMessage onFinished launchOk s
  if st.1.process.isSome then
    let fr := processFinishedMain exitCode st.1
    ⟨fr.state, st.2 ++ fr.events, fr.uncaught⟩
  else ⟨st.1, st.2, none⟩

/-- One complete lifecycle of a `_start_process` call in the deb
revision. -/
def runCommandDeb (args : List String) (statusMessage : Option String)
    (onFinished : Option Callback) (launchOk : Bool) (exitCode : Int)
    (s : RunnerState) : FinishResult :=
  let st := startProcessDeb args statusMessage onFinished launchOk s
  if st.1.process.isSome then
    let fr := processFinishedDeb exitCode st.1
    ⟨fr.state, st.2 ++ fr.events, fr.uncaught⟩
  else ⟨st.1, st.2, none⟩

/-- The exit codes carried by the continuation-invocation events of a
trace, in order. -/
def callbackCodes (events : List Event) : List Int :=
  events.filterMap fun e =>
    match e with
    | Event.callbackCalled c => some c
    | _ => none

/-! ## Filesystem model

The backup root `BACKUP_DIR = Path.home() / "kde-theme-backups"` is a
single directory; the code only ever looks at its immediate entries.
An entry is either a subdirectory (whose contents matter only in that
`shutil.rmtree` removes them together with it, so they are kept as an
opaque list of names) or a plain file.  The root itself may be absent,
modelled by `none`. -/

/-- An immediate entry of the backup root. -/
inductive FsEntry where
  | dir (name : String) (contents : List String)
  | file (name : String)
deriving DecidableEq, Repr

/-- The name of an entry. -/
def FsEntry.entryName : FsEntry → String
  | dir n _ => n
  | file n => n

/-- Whether an entry is a directory (`Path.is_dir`). -/
def FsEntry.isDir : FsEntry → Bool
  | dir _ _ => true
  | file _ => false

/-- `BACKUP_DIR.mkdir(parents=True, exist_ok=True)`: creates the root
when absent, otherwise leaves it untouched. -/
def mkdirParentsExistOk (fs : Option (List FsEntry)) : Option (List FsEntry) :=
  some (fs.getD [])

/-- `(BACKUP_DIR / p).exists()`: some immediate entry has name `p`. -/
def pathEx (p : String) (entries : List FsEntry) : Bool :=
  entries.any fun e => e.entryName == p

/-- `shutil.rmtree(BACKUP_DIR / p)`: removes the directory entry named
`p`, together with all of its contents (the entry carries them). -/
def rmtreeApply (p : String) (entries : List FsEntry) : List FsEntry :=
  entries.filter fun e => !(e.isDir && e.entryName == p)

/-- `(BACKUP_DIR / p).unlink()`: removes the plain-file entry named `p`. -/
def unlinkApply (p : String) (entries : List FsEntry) : List FsEntry :=
  entries.filter fun e => !(!e.isDir && e.entryName == p)

/-- Python `str.lower()` on a name, character by character (Lean
`Char.toLower` lowercases the ASCII range, which covers the names the
program handles). -/
def lowerChars (s : String) : List Char := s.data.map Char.toLower

/-- Lexicographic comparison of character sequences, the order Python
uses on strings. -/
def lexLeChars : List Char → List Char → Bool
  | [], _ => true
  | _ :: _, [] => false
  | a :: as, b :: bs =>
    if a < b then true else if b < a then false else lexLeChars as bs

theorem lexLeChars_total : ∀ a b : List Char, lexLeChars a b ∨ lexLeChars b a
  | [], _ => Or.inl rfl
  | _ :: _, [] => Or.inr rfl
  | a :: as, b :: bs => by
    by_cases hab : a < b
    · exact Or.inl (by simp [lexLeChars, hab])
    · by_cases hba : b < a
      · exact Or.inr (by simp [lexLeChars, hba])
      · rcases lexLeChars_total as bs with h | h
        · exact Or.inl (by simp [lexLeChars, hab, hba, h])
        · exact Or.inr (by simp [lexLeChars, hab, hba, h])

theorem lexLeChars_trans :
    ∀ a b c : List Char, lexLeChars a b → lexLeChars b c → lexLeChars a c
  | [], _, _, _, _ => rfl
  | _ :: _, [], _, h, _ => by simp [lexLeChars] at h
  | _ :: _, _ :: _, [], _, h => by simp [lexLeChars] at h
  | a :: as, b :: bs, c :: cs, h1, h2 => by
    simp only [lexLeChars] at h1 h2 ⊢
    by_cases hab : a < b
    · by_cases hbc : b < c
      · simp [lt_trans hab hbc]
      · by_cases hcb : c < b
        · simp [hbc, hcb] at h2
        · have hbc' : b = c := le_antisymm (not_lt.1 hcb) (not_lt.1 hbc)
          simp [hbc' ▸ hab]
    · by_cases hba : b < a
      · simp [hab, hba] at h1
      · have hab' : a = b := le_antisymm (not_lt.1 hba) (not_lt.1 hab)
        subst hab'
        by_cases hbc : a < c
        · simp [hbc]
        · by_cases hcb : c < a
          · simp [hbc, hcb] at h2
          · simp only [if_neg hbc, if_neg hcb, if_neg (lt_irrefl a)] at h1 h2 ⊢
            exact lexLeChars_trans as bs cs h1 h2

/-- Case-insensitive order on names: the comparison `sorted` performs
under `key=str.lower`. -/
def ciLe (a b : String) : Prop := lexLeChars (lowerChars a) (lowerChars b) = true

instance : DecidableRel ciLe :=
  fun a b => inferInstanceAs (Decidable (lexLeChars (lowerChars a) (lowerChars b) = true))

instance : IsTotal String ciLe :=
  ⟨fun a b => lexLeChars_total (lowerChars a) (lowerChars b)⟩

instance : IsTrans String ciLe :=
  ⟨fun a b c => lexLeChars_trans (lowerChars a) (lowerChars b) (lowerChars c)⟩

/-- Python `sorted(xs, key=str.lower)`: the stable ascending sort by the
case-folded key.  Every stable sort computes the same output for the
same total preorder, so insertion sort represents it exactly. -/
def pySortedLower (xs : List String) : List String :=
  List.insertionSort ciLe xs

/-- `load_backups` (identical listing logic in both revisions): clears
the list widget, ensures the root exists, and fills the widget with the
names of the immediate subdirectories, sorted case-insensitively.  The
deb revision has an additional `if not BACKUP_DIR.exists(): return`
which is unreachable right after the `mkdir`.  Returns the root after
the `mkdir` together with the displayed names; the widget update and
the `🔄 Backup list updated.` log line are not modelled. -/
def load_backups (fs : Option (List FsEntry)) :
    Option (List FsEntry) × List String :=
  let fs2 := mkdirParentsExistOk fs
  let names := ((fs2.getD []).filter FsEntry.isDir).map FsEntry.entryName
  (fs2, pySortedLower names)

/-! ## create_backup -/

/-- Python `str.strip()`: drop leading and trailing whitespace
(`Char.isWhitespace` covers the whitespace the program meets). -/
def pyStrip (s : String) : String :=
  ⟨((s.data.dropWhile Char.isWhitespace).reverse.dropWhile Char.isWhitespace).reverse⟩

/-- `KDE_THEME_CMD` constant of both revisions. -/
def KDE_THEME_CMD : String := "kde-theme"

/-- The check `any(c in name for c in " /\\:")`: the name contains a
space, a slash, a backslash or a colon. -/
def hasForbiddenChar (name : String) : Bool :=
  name.data.any fun c => c == ' ' || c == '/' || c == '\\' || c == ':'

/-- What `create_backup` did with the entered text, up to the point
where control leaves the validation code. -/
inductive CreateOutcome where
  | warnedNoName
  | warnedInvalid
  | declinedOverwrite
  | ranCommand (argv : List String) (statusMessage : String)
deriving DecidableEq, Repr

/-- `create_backup` of the main revision: strips the entered text, warns
and returns when the result is empty or contains a forbidden character,
and otherwise calls `run_cmd([KDE_THEME_CMD, "backup", name], …)` with a
refresh-on-success continuation (the continuation itself is covered by
the runner model). -/
def create_backup (text : String) : CreateOutcome :=
  let name := pyStrip text
  if name = "" then CreateOutcome.warnedNoName
  else if hasForbiddenChar name then CreateOutcome.warnedInvalid
  else
    CreateOutcome.ranCommand [KDE_THEME_CMD, "backup", name]
      ("Creating backup " ++ "'" ++ name ++ "'" ++ "…")

/-- `create_backup` of the deb revision: same validation, then — only
when `BACKUP_DIR / name` already exists — an overwrite confirmation
before the command is run. -/
def create_backup_deb (text : String) (entries : List FsEntry)
    (confirmOverwrite : Bool) : CreateOutcome :=
  let name := pyStrip text
  if name = "" then CreateOutcome.warnedNoName
  else if hasForbiddenChar name then CreateOutcome.warnedInvalid
  else if pathEx name entries && !confirmOverwrite then
    CreateOutcome.declinedOverwrite
  else
    CreateOutcome.ranCommand [KDE_THEME_CMD, "backup", name]
      ("Creating backup " ++ "'" ++ name ++ "'" ++ "…")

/-! ## delete_backup -/

/-- A mutating filesystem call made by `delete_backup`. -/
inductive FsOp where
  | rmtreeIgnoreErrors (p : String)
  | rmtree (p : String)
  | unlink (p : String)
deriving DecidableEq, Repr

/-- Result of a `delete_backup` run: root entries afterwards, the
mutating calls issued in order, and the log lines appended. -/
structure DeleteResult where
  fs : List FsEntry
  ops : List FsOp
  logLines : List String
deriving DecidableEq, Repr

/-- `delete_backup` of the main revision: with a selection and a
confirmed dialog it calls `shutil.rmtree(BACKUP_DIR / name,
ignore_errors=True)` unconditionally, then unlinks
`BACKUP_DIR / (name + ".tar.gz")` only if that path exists, logs the
deletion and refreshes the list (refresh not modelled here). -/
def delete_backup (name : Option String) (confirmYes : Bool)
    (entries : List FsEntry) : DeleteResult :=
  match name with
  | none => ⟨entries, [], []⟩
  | some n =>
    if !confirmYes then ⟨entries, [], []⟩
    else
      let e1 := rmtreeApply n entries
      let tar := n ++ ".tar.gz"
      if pathEx tar e1 then
        ⟨unlinkApply tar e1, [FsOp.rmtreeIgnoreErrors n, FsOp.unlink tar],
         ["🗑 Deleted " ++ "'" ++ n ++ "'" ++ "."]⟩
      else
        ⟨e1, [FsOp.rmtreeIgnoreErrors n],
         ["🗑 Deleted " ++ "'" ++ n ++ "'" ++ "."]⟩

/-- `delete_backup` of the deb revision: the directory removal is
guarded by `dir_path.exists()` and the archive unlink by
`tar_path.exists()`; both sit in one `try` block whose failure path is
not exercised in this model (the modelled filesystem calls succeed). -/
def delete_backup_deb (name : Option String) (confirmYes : Bool)
    (entries : List FsEntry) : DeleteResult :=
  match name with
  | none => ⟨entries, [], []⟩
  | some n =>
    if !confirmYes then ⟨entries, [], []⟩
    else
      let tar := n ++ ".tar.gz"
      let step1 :=
        if pathEx n entries then (rmtreeApply n entries, [FsOp.rmtree n])
        else (entries, ([] : List FsOp))
      let step2 :=
        if pathEx tar step1.1 then
          (unlinkApply tar step1.1, step1.2 ++ [FsOp.unlink tar])
        else step1
      ⟨step2.1, step2.2, ["🗑 Deleted backup " ++ "'" ++ n ++ "'" ++ "."]⟩

/-! ## import_backup (deb revision) -/

/-- `pathlib.PurePath.stem` on the final component `cs` of a path: the
name without its last suffix, where a dot at the very start or the very
end of the name does not begin a suffix. -/
def stemChars (cs : List Char) : List Char :=
  match (cs.reverse).findIdx? (· = '.') with
  | none => cs
  | some i =>
    let j := cs.length - 1 - i
    if 0 < j && j < cs.length - 1 then cs.take j else cs

/-- The final path component: everything after the last slash. -/
def baseNameChars (cs : List Char) : List Char :=
  (cs.reverse.takeWhile (fun c => c ≠ '/')).reverse

/-- `Path(file_path).stem`: final path component without its last
suffix. -/
def stem (filePath : String) : String :=
  ⟨stemChars (baseNameChars filePath.data)⟩

/-- The backup root rendered as a string for argv construction
(`str(BACKUP_DIR)`); its exact value depends on the home directory and
plays no role in any property below. -/
def backupDirStr : String := "HOME/kde-theme-backups"

/-- `import_backup` of the deb revision, from the point where the file
dialog returned (`filePath = none` models a cancelled dialog).  With a
chosen file and a confirmed import it ensures the root exists; when the
target directory `BACKUP_DIR / stem` already exists it asks for an
overwrite confirmation, returning with nothing further done when the
user declines, and clearing the target with `shutil.rmtree` otherwise
(the rmtree succeeds in this model; its failure dialog path is not
taken).  It then starts `tar -xzf ARCHIVE -C ROOT` through
`_start_process`.  Returns the root afterwards and the argv of the
started command, `none` when no command was started. -/
def import_backup_deb (filePath : Option String)
    (confirmImport confirmOverwrite : Bool) (fs : Option (List FsEntry)) :
    Option (List FsEntry) × Option (List String) :=
  match filePath with
  | none => (fs, none)
  | some fp =>
    if !confirmImport then (fs, none)
    else
      let fs1 := mkdirParentsExistOk fs
      let name := stem fp
      let entries := fs1.getD []
      let argv := ["tar", "-xzf", fp, "-C", backupDirStr]
      if pathEx name entries then
        if !confirmOverwrite then (fs1, none)
        else (some (rmtreeApply name entries), some argv)
      else (fs1, some argv)

/-! ## Output decoding (`_read_stdout` / `_read_stderr`) -/

/-- Lower bound of the second byte of a UTF-8 sequence with lead byte
`b` (the table the CPython codec implements). -/
def secondByteLo (b : Nat) : Nat :=
  if b = 0xE0 then 0xA0 else if b = 0xF0 then 0x90 else 0x80

/-- Upper bound of the second byte of a UTF-8 sequence with lead byte
`b`. -/
def secondByteHi (b : Nat) : Nat :=
  if b = 0xED then 0x9F else if b = 0xF4 then 0x8F else 0xBF

/-- Streaming UTF-8 decoder state: continuation bytes still expected,
the partial scalar value, and the admissible range of the next byte. -/
structure Utf8State where
  pending : Nat
  acc : Nat
  lo : Nat
  hi : Nat
deriving Repr

/-- Begin decoding at byte `b`: an ASCII byte yields itself, a valid
lead byte opens a multi-byte sequence, anything else is ill-formed and
yields the error-handler output `errOut`. -/
def utf8StartByte (errOut : List Char) (b : Nat) : List Char × Option Utf8State :=
  if b ≤ 0x7F then ([Char.ofNat b], none)
  else if 0xC2 ≤ b && b ≤ 0xDF then
    ([], some ⟨1, b - 0xC0, secondByteLo b, secondByteHi b⟩)
  else if 0xE0 ≤ b && b ≤ 0xEF then
    ([], some ⟨2, b - 0xE0, secondByteLo b, secondByteHi b⟩)
  else if 0xF0 ≤ b && b ≤ 0xF4 then
    ([], some ⟨3, b - 0xF0, secondByteLo b, secondByteHi b⟩)
  else (errOut, none)

/-- Decode a UTF-8 byte stream, splicing the error-handler output
`errOut` in place of each ill-formed subsequence and resuming at the
offending byte, the way the CPython codec does.  `errOut = []` is
`errors="ignore"` (the revisions pass exactly this), `errOut = [�]`
would be `errors="replace"`; with either handler no decoding error is
ever raised. -/
def utf8DecodeWith (errOut : List Char) : Option Utf8State → List Nat → List Char
  | none, [] => []
  | some _, [] => errOut
  | none, b :: bs =>
    let st := utf8StartByte errOut b
    st.1 ++ utf8DecodeWith errOut st.2 bs
  | some st, b :: bs =>
    if st.lo ≤ b && b ≤ st.hi then
      let acc := st.acc * 0x40 + (b - 0x80)
      if st.pending = 1 then Char.ofNat acc :: utf8DecodeWith errOut none bs
      else utf8DecodeWith errOut (some ⟨st.pending - 1, acc, 0x80, 0xBF⟩) bs
    else
      let st2 := utf8StartByte errOut b
      errOut ++ st2.1 ++ utf8DecodeWith errOut st2.2 bs

/-- `bytes.decode("utf-8", errors="ignore")`: ill-formed subsequences
are dropped. -/
def decodeIgnore (bs : List Nat) : String :=
  ⟨utf8DecodeWith [] none bs⟩

/-- `bytes.decode("utf-8", errors="replace")`: ill-formed subsequences
become U+FFFD.  The code does not use this handler; it is here to state
what the spec text would require. -/
def decodeReplace (bs : List Nat) : String :=
  ⟨utf8DecodeWith [Char.ofNat 0xFFFD] none bs⟩

/-- `_read_stdout` (same observable behaviour in both revisions): when a
process is outstanding, read the available bytes, decode them with
`errors="ignore"`, strip surrounding whitespace, and append the result
to the log (a no-op for the empty string, via `append_log`). -/
def read_stdout (chunk : List Nat) (s : RunnerState) : RunnerState :=
  if s.process.isSome then append_log (pyStrip (decodeIgnore chunk)) s else s

/-- `_read_stderr`: identical to `_read_stdout` on the error channel. -/
def read_stderr (chunk : List Nat) (s : RunnerState) : RunnerState :=
  if s.process.isSome then append_log (pyStrip (decodeIgnore chunk)) s else s

/-! ## Concrete states and helper lemmas -/

/-- A process handle as `_start_process` creates one. -/
def demoHandle : ProcHandle :=
  { program := "kde-theme"
    arguments := ["backup", "x"]
    stdoutConnected := true
    stderrConnected := true
    finishedConnected := true }

/-- The window state right after startup: Idle, empty log. -/
def initState : RunnerState :=
  { process := none
    afterProcess := none
    progressVisible := false
    statusText := "Idle."
    controlsDisabled := false
    log := [] }

/-- A state with an outstanding command and a stored continuation. -/
def busyState : RunnerState :=
  { process := some demoHandle
    afterProcess := some (fun _ => Except.ok ())
    progressVisible := true
    statusText := "Working…"
    controlsDisabled := true
    log := ["$ kde-theme backup x"] }

/-- A continuation that raises on every exit code. -/
def raisingCallback : Callback := fun _ => Except.error "boom"

/-- A state whose stored continuation raises when invoked. -/
def busyStateRaising : RunnerState :=
  { process := some demoHandle
    afterProcess := some raisingCallback
    progressVisible := true
    statusText := "Working…"
    controlsDisabled := true
    log := [] }

@[simp] theorem callbackCodes_nil : callbackCodes [] = [] := rfl

@[simp] theorem callbackCodes_warned (t m : String) (es : List Event) :
    callbackCodes (Event.warned t m :: es) = callbackCodes es := rfl

@[simp] theorem callbackCodes_critical (t m : String) (es : List Event) :
    callbackCodes (Event.critical t m :: es) = callbackCodes es := rfl

@[simp] theorem callbackCodes_called (c : Int) (es : List Event) :
    callbackCodes (Event.callbackCalled c :: es) = c :: callbackCodes es := rfl

@[simp] theorem callbackCodes_append (a b : List Event) :
    callbackCodes (a ++ b) = callbackCodes a ++ callbackCodes b :=
  List.filterMap_append ..

theorem append_log_log_of_ne (t : String) (s : RunnerState) (ht : t ≠ "") :
    (append_log t s).log = s.log ++ [t] := by
  simp [append_log, ht]

@[simp] theorem append_log_process (t : String) (s : RunnerState) :
    (append_log t s).process = s.process := by
  by_cases h : t = "" <;> simp [append_log, h]

@[simp] theorem append_log_afterProcess (t : String) (s : RunnerState) :
    (append_log t s).afterProcess = s.afterProcess := by
  by_cases h : t = "" <;> simp [append_log, h]

@[simp] theorem set_busy_process (b : Bool) (m : Option String) (s : RunnerState) :
    (set_busy b m s).process = s.process := rfl

@[simp] theorem set_busy_afterProcess (b : Bool) (m : Option String) (s : RunnerState) :
    (set_busy b m s).afterProcess = s.afterProcess := rfl

@[simp] theorem set_busy_log (b : Bool) (m : Option String) (s : RunnerState) :
    (set_busy b m s).log = s.log := rfl

@[simp] theorem callbackCodes_finishPrefixWith (fl : Int → String) (ft : String)
    (fd : Int → String) (im : Option String) (e : Int) (s : RunnerState) :
    callbackCodes (finishPrefixWith fl ft fd im e s).2 = [] := by
  by_cases he : e = 0 <;> simp [finishPrefixWith, he]

@[simp] theorem finishPrefixWith_fst_process (fl : Int → String) (ft : String)
    (fd : Int → String) (im : Option String) (e : Int) (s : RunnerState) :
    (finishPrefixWith fl ft fd im e s).1.process = none := rfl

@[simp] theorem finishPrefixWith_fst_afterProcess (fl : Int → String) (ft : String)
    (fd : Int → String) (im : Option String) (e : Int) (s : RunnerState) :
    (finishPrefixWith fl ft fd im e s).1.afterProcess = none := rfl

theorem prefix_append_ne_empty (p t : String) (hp : p ≠ "") : p ++ t ≠ "" := by
  intro h
  apply hp
  have h2 := congrArg String.length h
  rw [String.length_append] at h2
  have h0 : String.length "" = 0 := rfl
  rw [h0] at h2
  have h3 : p.length = 0 := by omega
  cases p with
  | mk data =>
    cases data with
    | nil => rfl
    | cons c cs => simp [String.length, List.length] at h3

theorem pathEx_filter_false (f : FsEntry → Bool) {p : String}
    {entries : List FsEntry} (h : pathEx p entries = false) :
    pathEx p (entries.filter f) = false := by
  simp only [pathEx, List.any_eq_false] at h ⊢
  intro e he
  exact h e (List.mem_filter.mp he).1

theorem pathEx_rmtreeApply_of_ne {p q : String} (hne : p ≠ q)
    (entries : List FsEntry) :
    pathEx p (rmtreeApply q entries) = pathEx p entries := by
  induction entries with
  | nil => rfl
  | cons e es ih =>
    by_cases hq : (e.isDir && (e.entryName == q)) = true
    · have hname : e.entryName = q := by
        have := (Bool.and_eq_true _ _).mp hq
        exact eq_of_beq this.2
      have hnp : (e.entryName == p) = false := by
        simp [hname]
        exact fun h => hne (h ▸ rfl)
      simp only [rmtreeApply, List.filter_cons, hq, Bool.not_true, if_false] at *
      simp only [pathEx, List.any_cons, hnp, Bool.false_or] at *
      exact ih
    · simp only [rmtreeApply, List.filter_cons] at *
      rw [Bool.not_eq_true] at hq
      simp only [hq, Bool.not_false, if_true]
      simp only [pathEx, List.any_cons]
      simp only [pathEx, rmtreeApply] at ih
      rw [ih]

theorem string_append_ne_self (n t : String) (ht : t ≠ "") : n ++ t ≠ n := by
  intro h
  have h2 := congrArg String.length h
  rw [String.length_append] at h2
  have h3 : t.length = 0 := by omega
  apply ht
  cases t with
  | mk data =>
    cases data with
    | nil => rfl
    | cons c cs => simp [String.length, List.length] at h3

/-! ## Claim theorems -/

/-- C1: for every state in which a command is outstanding (the process
slot is non-empty), any call to `_start_process` — in either revision —
is rejected with a user-visible busy notice and returns the state
completely unchanged: the outstanding command handle with its connected
output handlers and the stored completion continuation are exactly as
before. -/
theorem busy_start_rejected (args : List String) (statusMessage : Option String)
    (onFinished : Option Callback) (launchOk : Bool) (s : RunnerState)
    (h : s.process.isSome = true) :
    startProcessMain args statusMessage onFinished launchOk s =
      (s, [Event.warned "Busy" "A task is already running."]) ∧
    startProcessDeb args statusMessage onFinished launchOk s =
      (s, [Event.warned "Already running"
        "A command is already running. Please wait for it to finish."]) := by
  constructor <;> simp [startProcessMain, startProcessDeb, startProcessWith, h]

/-- Witness for C1 at a concrete busy state. -/
theorem busy_start_rejected_witness :
    startProcessMain ["kde-theme", "restore", "y"] none none true busyState =
      (busyState, [Event.warned "Busy" "A task is already running."]) ∧
    startProcessDeb ["kde-theme", "restore", "y"] none none true busyState =
      (busyState, [Event.warned "Already running"
        "A command is already running. Please wait for it to finish."]) :=
  busy_start_rejected ["kde-theme", "restore", "y"] none none true busyState rfl

/-- C5: `load_backups` first ensures the backup root exists (creating it
when missing, a no-op otherwise), then returns exactly the names of the
immediate subdirectories of the root — plain files excluded — sorted in
case-insensitive lexical order; a root holding `alpha`, `Beta`, `gamma`
yields `["alpha", "Beta", "gamma"]`, and an absent or empty root yields
the empty sequence. -/
theorem load_backups_spec :
    (∀ fs : Option (List FsEntry),
      (load_backups fs).1 = some (fs.getD []) ∧
      ((load_backups fs).2).Perm
        (((fs.getD []).filter FsEntry.isDir).map FsEntry.entryName) ∧
      ((load_backups fs).2).Sorted ciLe) ∧
    load_backups none = (some [], []) ∧
    load_backups (some []) = (some [], []) ∧
    (load_backups (some [FsEntry.dir "alpha" [], FsEntry.dir "Beta" [],
        FsEntry.dir "gamma" [], FsEntry.file "notes.txt"])).2 =
      ["alpha", "Beta", "gamma"] := by
  refine ⟨fun fs => ⟨rfl, ?_, ?_⟩, by decide, by decide, by decide⟩
  · exact List.perm_insertionSort ciLe _
  · exact List.sorted_insertionSort ciLe _

/-- C7: importing an archive whose target backup directory already
exists, with the user declining the overwrite confirmation, leaves the
backup root exactly as it was and starts no external command (so nothing
is removed, extracted or copied). -/
theorem import_decline_no_mutation (fp : String) (entries : List FsEntry)
    (h : pathEx (stem fp) entries = true) :
    import_backup_deb (some fp) true false (some entries) = (some entries, none) := by
  simp [import_backup_deb, mkdirParentsExistOk, h]

/-- Witness for C7: importing `theme1.tar.gz` (whose stem is
`theme1.tar`) while a backup of that name exists, declining the
overwrite. -/
theorem import_decline_no_mutation_witness :
    import_backup_deb (some "theme1.tar.gz") true false
      (some [FsEntry.dir "theme1.tar" ["f"], FsEntry.file "other.tar.gz"]) =
      (some [FsEntry.dir "theme1.tar" ["f"], FsEntry.file "other.tar.gz"], none) :=
  import_decline_no_mutation "theme1.tar.gz"
    [FsEntry.dir "theme1.tar" ["f"], FsEntry.file "other.tar.gz"] (by decide)

/-- C9 counterexample: the claim quantifies over every *entered* name,
but `create_backup` strips surrounding whitespace before validating, so
the entered name `"macosfull "` — which contains a space — is *not*
rejected: both revisions proceed to run the backup command. -/
theorem space_in_entered_name_accepted_cex :
    hasForbiddenChar "macosfull " = true ∧
    create_backup "macosfull " =
      CreateOutcome.ranCommand ["kde-theme", "backup", "macosfull"]
        "Creating backup 'macosfull'…" ∧
    create_backup_deb "macosfull " [] true =
      CreateOutcome.ranCommand ["kde-theme", "backup", "macosfull"]
        "Creating backup 'macosfull'…" := by
  refine ⟨by decide, by decide, by decide⟩

/-- C9 amended: validation applies to the whitespace-stripped name.
Every stripped name containing a space, `/`, `\` or `:` is rejected with
a warning and no process is started, and every non-empty stripped name
free of those characters passes validation (in both revisions); the
examples of the claim behave as stated. -/
theorem stripped_name_validation (text : String) (entries : List FsEntry) :
    (hasForbiddenChar (pyStrip text) = true →
      create_backup text = CreateOutcome.warnedInvalid ∧
      create_backup_deb text entries true = CreateOutcome.warnedInvalid) ∧
    (pyStrip text ≠ "" → hasForbiddenChar (pyStrip text) = false →
      create_backup text =
        CreateOutcome.ranCommand [KDE_THEME_CMD, "backup", pyStrip text]
          ("Creating backup " ++ "'" ++ pyStrip text ++ "'" ++ "…")) ∧
    create_backup "my backup" = CreateOutcome.warnedInvalid ∧
    create_backup "a/b" = CreateOutcome.warnedInvalid ∧
    create_backup "a:b" = CreateOutcome.warnedInvalid ∧
    create_backup "a\\b" = CreateOutcome.warnedInvalid ∧
    create_backup "macosfull" =
      CreateOutcome.ranCommand ["kde-theme", "backup", "macosfull"]
        "Creating backup 'macosfull'…" ∧
    create_backup "win11-dark" =
      CreateOutcome.ranCommand ["kde-theme", "backup", "win11-dark"]
        "Creating backup 'win11-dark'…" := by
  refine ⟨?_, ?_, by decide, by decide, by decide, by decide, by decide, by decide⟩
  · intro h2
    have hne : pyStrip text ≠ "" := by
      intro he
      rw [he] at h2
      exact absurd h2 (by decide)
    constructor <;> simp [create_backup, create_backup_deb, hne, h2]
  · intro h1 h2
    simp [create_backup, h1, h2]

/-- Witness for C9 amended, at names that are validated only after
stripping. -/
theorem stripped_name_validation_witness :
    create_backup " bad:name " = CreateOutcome.warnedInvalid ∧
    create_backup " good-name " =
      CreateOutcome.ranCommand ["kde-theme", "backup", "good-name"]
        "Creating backup 'good-name'…" :=
  ⟨((stripped_name_validation " bad:name " []).1 (by decide)).1,
   (stripped_name_validation " good-name " []).2.1 (by decide) (by decide)⟩

/-- C10: a name that is empty, or consists only of whitespace, is
rejected by `create_backup` with a warning, before any other check and
before any command can be started, leaving every piece of state
untouched — in both revisions. -/
theorem blank_name_rejected (text : String) (entries : List FsEntry)
    (confirmOverwrite : Bool) (h : pyStrip text = "") :
    create_backup text = CreateOutcome.warnedNoName ∧
    create_backup_deb text entries confirmOverwrite = CreateOutcome.warnedNoName := by
  constructor <;> simp [create_backup, create_backup_deb, h]

/-- Witness for C10 at a whitespace-only entry. -/
theorem blank_name_rejected_witness :
    create_backup "   " = CreateOutcome.warnedNoName ∧
    create_backup_deb "   " [FsEntry.dir "a" []] false = CreateOutcome.warnedNoName :=
  blank_name_rejected "   " [FsEntry.dir "a" []] false (by decide)

/-- C8: a confirmed `delete_backup` of a name whose directory exists
removes the directory recursively and reports success; when no sibling
archive exists, no archive removal is ever attempted (the `unlink` is
guarded by an existence check in both revisions), and when both exist
the directory is removed first and the archive second. -/
theorem delete_backup_spec (n : String) (entries : List FsEntry)
    (hd : pathEx n entries = true) :
    (pathEx (n ++ ".tar.gz") entries = false →
      delete_backup (some n) true entries =
        ⟨rmtreeApply n entries, [FsOp.rmtreeIgnoreErrors n],
         ["🗑 Deleted " ++ "'" ++ n ++ "'" ++ "."]⟩ ∧
      delete_backup_deb (some n) true entries =
        ⟨rmtreeApply n entries, [FsOp.rmtree n],
         ["🗑 Deleted backup " ++ "'" ++ n ++ "'" ++ "."]⟩) ∧
    (pathEx (n ++ ".tar.gz") entries = true →
      (delete_backup (some n) true entries).ops =
        [FsOp.rmtreeIgnoreErrors n, FsOp.unlink (n ++ ".tar.gz")] ∧
      (delete_backup_deb (some n) true entries).ops =
        [FsOp.rmtree n, FsOp.unlink (n ++ ".tar.gz")]) := by
  have hne : (n ++ ".tar.gz") ≠ n := string_append_ne_self n ".tar.gz" (by decide)
  constructor
  · intro ht
    have ht2 : pathEx (n ++ ".tar.gz") (rmtreeApply n entries) = false := by
      rw [pathEx_rmtreeApply_of_ne hne]
      exact ht
    constructor
    · simp [delete_backup, ht2]
    · simp [delete_backup_deb, hd, ht2]
  · intro ht
    have ht2 : pathEx (n ++ ".tar.gz") (rmtreeApply n entries) = true := by
      rw [pathEx_rmtreeApply_of_ne hne]
      exact ht
    constructor
    · simp [delete_backup, ht2]
    · simp [delete_backup_deb, hd, ht2]

/-- Witness for C8: deleting `foo` with only the directory present, and
deleting `foo` with both the directory and `foo.tar.gz` present. -/
theorem delete_backup_spec_witness :
    delete_backup (some "foo") true [FsEntry.dir "foo" ["x"], FsEntry.file "bar.txt"] =
      ⟨[FsEntry.file "bar.txt"], [FsOp.rmtreeIgnoreErrors "foo"], ["🗑 Deleted 'foo'."]⟩ ∧
    (delete_backup_deb (some "foo") true
        [FsEntry.dir "foo" [], FsEntry.file "foo.tar.gz"]).ops =
      [FsOp.rmtree "foo", FsOp.unlink "foo.tar.gz"] :=
  ⟨((delete_backup_spec "foo" [FsEntry.dir "foo" ["x"], FsEntry.file "bar.txt"]
      (by decide)).1 (by decide)).1,
   ((delete_backup_spec "foo" [FsEntry.dir "foo" [], FsEntry.file "foo.tar.gz"]
      (by decide)).2 (by decide)).2⟩

/-- C2: from an Idle state, a start whose launch succeeds leads to the
continuation being invoked exactly once, carrying the actual exit code
of the process — and a stray later `finished` delivery invokes nothing
further; a start whose launch fails or times out invokes the
continuation zero times and returns the runner to Idle, with both the
process slot and the stored continuation cleared.  Both revisions. -/
theorem continuation_exactly_once (prog : String) (rest : List String)
    (statusMessage : Option String) (f : Callback) (exitCode : Int)
    (s : RunnerState) (hidle : s.process = none) :
    (callbackCodes (runCommandMain (prog :: rest) statusMessage (some f)
        true exitCode s).events = [exitCode] ∧
     callbackCodes (runCommandDeb (prog :: rest) statusMessage (some f)
        true exitCode s).events = [exitCode]) ∧
    (callbackCodes (runCommandMain (prog :: rest) statusMessage (some f)
        false exitCode s).events = [] ∧
     (runCommandMain (prog :: rest) statusMessage (some f)
        false exitCode s).state.process = none ∧
     (runCommandMain (prog :: rest) statusMessage (some f)
        false exitCode s).state.afterProcess = none ∧
     callbackCodes (runCommandDeb (prog :: rest) statusMessage (some f)
        false exitCode s).events = [] ∧
     (runCommandDeb (prog :: rest) statusMessage (some f)
        false exitCode s).state.process = none ∧
     (runCommandDeb (prog :: rest) statusMessage (some f)
        false exitCode s).state.afterProcess = none) ∧
    (callbackCodes (processFinishedMain exitCode
        (runCommandMain (prog :: rest) statusMessage (some f)
          true exitCode s).state).events = [] ∧
     callbackCodes (processFinishedDeb exitCode
        (runCommandDeb (prog :: rest) statusMessage (some f)
          true exitCode s).state).events = []) := by
  cases hf : f exitCode <;>
    simp [runCommandMain, runCommandDeb, startProcessMain, startProcessDeb,
      startProcessWith, processFinishedMain, processFinishedDeb,
      finishPrefixMain, finishPrefixDeb, hidle, hf]

/-- Witness for C2 at a concrete Idle start. -/
theorem continuation_exactly_once_witness :
    callbackCodes (runCommandMain ["kde-theme", "backup", "x"] none
      (some (fun _ => Except.ok ())) true 0 initState).events = [0] ∧
    callbackCodes (runCommandMain ["kde-theme", "backup", "x"] none
      (some (fun _ => Except.ok ())) false 0 initState).events = [] :=
  ⟨(continuation_exactly_once "kde-theme" ["backup", "x"] none
      (fun _ => Except.ok ()) 0 initState rfl).1.1,
   (continuation_exactly_once "kde-theme" ["backup", "x"] none
      (fun _ => Except.ok ()) 0 initState rfl).2.1.1⟩

/-- C3 counterexample: at exit code `0` in the concrete busy state, the
continuation *is* invoked, but by the time `_process_finished` reaches
the `cb(exit_code)` call the runner is already Idle — the process slot
and continuation slot are cleared — and a new `_start_process` issued at
that very state is accepted.  This contradicts the claim that the runner
returns to Idle only after the continuation returns and is never Idle
while it executes. -/
theorem idle_during_continuation_cex :
    callbackCodes (processFinishedMain 0 busyState).events = [0] ∧
    isIdle (stateAtCallbackMain 0 busyState) = true ∧
    (stateAtCallbackMain 0 busyState).process = none ∧
    (stateAtCallbackMain 0 busyState).afterProcess = none ∧
    ((startProcessMain ["kde-theme", "backup", "y"] none none true
        (stateAtCallbackMain 0 busyState)).1.process.isSome) = true ∧
    isIdle (stateAtCallbackDeb 0 busyState) = true := by
  exact ⟨rfl, rfl, rfl, rfl, rfl, rfl⟩

/-- C3 amended: on process completion the runner logs the outcome and
transitions back to Idle — clearing the process slot and the stored
continuation — *before* invoking the continuation, which it then invokes
exactly once with the exit code; the continuation therefore executes
with the runner already Idle and able to accept a new start.  Both
revisions. -/
theorem idle_before_continuation (exitCode : Int) (s : RunnerState) (f : Callback)
    (hp : s.process.isSome = true) (hcb : s.afterProcess = some f) :
    isIdle (stateAtCallbackMain exitCode s) = true ∧
    (stateAtCallbackMain exitCode s).process = none ∧
    (stateAtCallbackMain exitCode s).afterProcess = none ∧
    callbackCodes (processFinishedMain exitCode s).events = [exitCode] ∧
    isIdle (stateAtCallbackDeb exitCode s) = true ∧
    (stateAtCallbackDeb exitCode s).process = none ∧
    (stateAtCallbackDeb exitCode s).afterProcess = none ∧
    callbackCodes (processFinishedDeb exitCode s).events = [exitCode] := by
  have hnn : s.process.isNone = false := by
    cases hs : s.process
    · rw [hs] at hp
      simp at hp
    · rfl
  cases hf : f exitCode <;>
    simp [stateAtCallbackMain, stateAtCallbackDeb, processFinishedMain,
      processFinishedDeb, finishPrefixMain, finishPrefixDeb, isIdle,
      hcb, hnn, hf]

/-- Witness for C3 amended at the concrete busy state with exit code 2. -/
theorem idle_before_continuation_witness :
    isIdle (stateAtCallbackMain 2 busyState) = true ∧
    callbackCodes (processFinishedMain 2 busyState).events = [2] :=
  ⟨(idle_before_continuation 2 busyState (fun _ => Except.ok ()) rfl rfl).1,
   (idle_before_continuation 2 busyState (fun _ => Except.ok ()) rfl rfl).2.2.2.1⟩

/-- C4 counterexample: in the main revision `_process_finished` invokes
the continuation with no exception handler around it, so a continuation
that raises lets the exception propagate out of the runner uncaught, and
nothing about it is recorded in the log.  (The runner is nevertheless
already Idle at that point, so no non-Idle state is left behind.) -/
theorem continuation_exception_uncaught_cex :
    (processFinishedMain 0 busyStateRaising).uncaught = some "boom" ∧
    (processFinishedMain 0 busyStateRaising).state.log = ["✅ Done."] ∧
    isIdle (processFinishedMain 0 busyStateRaising).state = true := by
  exact ⟨rfl, rfl, rfl⟩

/-- C4 amended: only the deb revision catches an exception raised by the
continuation, recording it in the log as `❌ Error in callback: …` and
letting nothing propagate; in the main revision the exception propagates
out of `_process_finished` uncaught.  In both revisions the runner is
already Idle when the continuation runs, so the escape does not leave
the runner in a non-Idle state. -/
theorem continuation_exception_handling (exitCode : Int) (emsg : String)
    (f : Callback) (s : RunnerState) (hp : s.process.isSome = true)
    (hcb : s.afterProcess = some f) (hf : f exitCode = Except.error emsg) :
    (processFinishedDeb exitCode s).uncaught = none ∧
    (processFinishedDeb exitCode s).state.log =
      (stateAtCallbackDeb exitCode s).log ++ ["❌ Error in callback: " ++ emsg] ∧
    isIdle (processFinishedDeb exitCode s).state = true ∧
    (processFinishedMain exitCode s).uncaught = some emsg ∧
    isIdle (processFinishedMain exitCode s).state = true := by
  have hnn : s.process.isNone = false := by
    cases hs : s.process
    · rw [hs] at hp
      simp at hp
    · rfl
  have hline : ("❌ Error in callback: " ++ emsg) ≠ "" :=
    prefix_append_ne_empty "❌ Error in callback: " emsg (by decide)
  refine ⟨?_, ?_, ?_, ?_, ?_⟩ <;>
    simp [processFinishedMain, processFinishedDeb, stateAtCallbackDeb,
      finishPrefixMain, finishPrefixDeb, isIdle, hcb, hnn, hf,
      append_log_log_of_ne _ _ hline]

/-- Witness for C4 amended at the concrete raising continuation. -/
theorem continuation_exception_handling_witness :
    (processFinishedDeb 5 busyStateRaising).uncaught = none ∧
    (processFinishedMain 5 busyStateRaising).uncaught = some "boom" :=
  ⟨(continuation_exception_handling 5 "boom" raisingCallback busyStateRaising
      rfl rfl rfl).1,
   (continuation_exception_handling 5 "boom" raisingCallback busyStateRaising
      rfl rfl rfl).2.2.2.1⟩

/-- C6 counterexample: the output handlers decode with
`errors="ignore"`, which *drops* malformed byte sequences instead of
replacing them: for the chunk `61 FF 62` the text appended to the log is
`"ab"`, whereas replacement decoding — what the claim asserts — yields
`"a�b"`. -/
theorem output_decode_not_replace_cex :
    (read_stdout [97, 255, 98] busyState).log = busyState.log ++ ["ab"] ∧
    decodeReplace [97, 255, 98] = "a�b" ∧
    decodeReplace [97, 255, 98] ≠ "ab" := by
  exact ⟨rfl, by decide, by decide⟩

/-- C6 amended: each delivered chunk is decoded permissively — malformed
byte sequences are *dropped* (`errors="ignore"`) rather than raising —
then stripped of surrounding whitespace and appended to the log sink
when non-empty.  Decoding is total: no chunk raises. -/
theorem output_decoded_ignoring_errors (chunk : List Nat) (s : RunnerState)
    (h : s.process.isSome = true) :
    (read_stdout chunk s).log =
      (if pyStrip (decodeIgnore chunk) = "" then s.log
       else s.log ++ [pyStrip (decodeIgnore chunk)]) ∧
    (read_stderr chunk s).log =
      (if pyStrip (decodeIgnore chunk) = "" then s.log
       else s.log ++ [pyStrip (decodeIgnore chunk)]) ∧
    decodeIgnore [97, 255, 98] = "ab" := by
  refine ⟨?_, ?_, by decide⟩ <;>
    · by_cases h2 : pyStrip (decodeIgnore chunk) = "" <;>
        simp [read_stdout, read_stderr, append_log, h, h2]

/-- Witness for C6 amended at the malformed chunk `61 FF 62`. -/
theorem output_decoded_ignoring_errors_witness :
    (read_stdout [97, 255, 98] busyState).log = busyState.log ++ ["ab"] := by
  have h := (output_decoded_ignoring_errors [97, 255, 98] busyState rfl).1
  have h2 : pyStrip (decodeIgnore [97, 255, 98]) = "ab" := by decide
  rw [h2] at h
  rw [h]
  rw [if_neg (by decide)]

end KdeThemeGui
